import Mathlib

/-!
Verification of the point-cloud "tornado" sketch (src/sketch.js).

The development shallowly embeds the three algorithmic parts of the sketch:

* the PLY loader `parsePointCloud` (lines 291-327 of the source), modelled
  over exact rationals: a line of the newline-split input is abstracted to
  whether it contains the sentinel marker plus the list of its space-split
  tokens after applying the JS builtin parseFloat (`none` standing for NaN,
  `some q` for a finite value, idealised to an exact rational);
* the palette transition state machine (globals at lines 58-61, the tick
  inside `draw` at lines 247-258, and `mousePressed` at lines 275-282),
  also over exact rationals;
* the GLSL vertex and fragment shaders embedded as strings in `setup`
  (gradient parameter and swirl at lines 96-113, colour mix at lines
  139-152), modelled over the real numbers. The gradient division is
  modelled twice: with the total division of the reals, adequate wherever
  the denominator is nonzero, and, for the unguarded division-by-zero path
  of source line 101, with a model that keeps the IEEE error values (NaN
  and the infinities) that float division of finite operands produces.
-/

set_option autoImplicit false

namespace Tornado

/-- Extended value used for the running extent globals minX, maxX, minZ,
maxZ of the sketch, which start at JS Infinity and -Infinity (source lines
28-29) and otherwise hold finite values. -/
inductive XVal where
  | negInf
  | fin (q : ℚ)
  | posInf
  deriving DecidableEq, Repr

/-- JS comparison q < m of a finite number against an extent value, as used
in the guard of the running-minimum update. -/
def XVal.ltFin (q : ℚ) (m : XVal) : Bool :=
  match m with
  | .negInf => false
  | .fin r => q < r
  | .posInf => true

/-- JS comparison m < q of an extent value against a finite number, as used
in the guard of the running-maximum update. -/
def XVal.gtFin (q : ℚ) (m : XVal) : Bool :=
  match m with
  | .negInf => true
  | .fin r => r < q
  | .posInf => false

/-- Abstraction of one element of data.split of the newline character:
whether the raw line contains the sentinel marker end_header, and the value
of parseFloat on each of its space-split tokens (`none` for NaN). -/
structure PLine where
  hasEndHeader : Bool
  fields : List (Option ℚ)
  deriving DecidableEq, Repr

/-- Indexing temp of the source with parseFloat applied: an index past the
end of the token list reads undefined, and parseFloat of undefined is NaN
(`none`). -/
def PLine.field (l : PLine) (i : ℕ) : Option ℚ :=
  l.fields.getD i none

/-- The mutable globals touched by parsePointCloud: the header flag local
to the loop, the flat vertices and colors arrays, and the four extent
scalars (source lines 24-29 and 293). Colour entries keep the Option so
that a NaN colour pushed for a line with valid position but missing colour
tokens is represented faithfully. -/
structure PState where
  header : Bool
  vertices : List ℚ
  colors : List (Option ℚ)
  minX : XVal
  maxX : XVal
  minZ : XVal
  maxZ : XVal
  deriving DecidableEq, Repr

/-- Initial values of the globals before parsing (source lines 24-29 and
line 293). -/
def initState : PState :=
  { header := true
    vertices := []
    colors := []
    minX := .posInf
    maxX := .negInf
    minZ := .posInf
    maxZ := .negInf }

/-- One iteration of the loop body of parsePointCloud (source lines
295-325): the sentinel check, the header skip, parseFloat of the first six
tokens with the y flip, the NaN guard on x, y, z, the scale and offset, the
pushes, and the four extent updates. -/
def step (scale xAdd yAdd zAdd : ℚ) (s : PState) (l : PLine) : PState :=
  if l.hasEndHeader then
    { s with header := false }
  else if s.header then
    s
  else
    match l.field 0, (l.field 1).map (fun v => -v), l.field 2 with
    | some x0, some y0, some z0 =>
      let r := (l.field 3).map (fun v => v / 255)
      let g := (l.field 4).map (fun v => v / 255)
      let b := (l.field 5).map (fun v => v / 255)
      let x := x0 * scale + xAdd
      let y := y0 * scale + yAdd
      let z := z0 * scale + zAdd
      { s with
        vertices := s.vertices ++ [x, y, z]
        colors := s.colors ++ [r, g, b]
        minX := if XVal.ltFin x s.minX then .fin x else s.minX
        maxX := if XVal.gtFin x s.maxX then .fin x else s.maxX
        minZ := if XVal.ltFin z s.minZ then .fin z else s.minZ
        maxZ := if XVal.gtFin z s.maxZ then .fin z else s.maxZ }
    | _, _, _ => s

/-- parsePointCloud (source lines 291-327): the loop runs i from 0 while
i < lines.length - 1, so it folds the step over every element of the split
list except the last. -/
def parsePointCloud (data : List PLine) (scale xAdd yAdd zAdd : ℚ) : PState :=
  (data.take (data.length - 1)).foldl (step scale xAdd yAdd zAdd) initState

/-- Number of points handed to drawArrays by draw (source lines 264-266):
zero when the vertices array is empty, else one point per vertex triple. -/
def drawCount (verts : List ℚ) : ℕ :=
  if verts.length = 0 then 0 else verts.length / 3

/-- A data line with six numeric fields, as used to state the parsing
claims: the six parsed values and the (possibly non-numeric) extra
trailing tokens. -/
structure DataLine where
  x : ℚ
  y : ℚ
  z : ℚ
  r : ℚ
  g : ℚ
  b : ℚ
  extra : List (Option ℚ)
  deriving DecidableEq, Repr

/-- The line a DataLine denotes: a numeric line does not contain the
sentinel marker, and its first six tokens parse to the six values. -/
def DataLine.toLine (d : DataLine) : PLine :=
  { hasEndHeader := false
    fields := [some d.x, some d.y, some d.z, some d.r, some d.g, some d.b] ++ d.extra }

/-- Post-transform x value of a data line (x scaled then offset, source
line 312). -/
def px (scale xAdd : ℚ) (d : DataLine) : ℚ :=
  d.x * scale + xAdd

/-- Post-transform y value of a data line (y negated at parse, then scaled
and offset, source lines 302 and 313). -/
def py (scale yAdd : ℚ) (d : DataLine) : ℚ :=
  (-d.y) * scale + yAdd

/-- Post-transform z value of a data line (z scaled then offset, source
line 314). -/
def pz (scale zAdd : ℚ) (d : DataLine) : ℚ :=
  d.z * scale + zAdd

/-- Running minimum of a list of finite values starting from an extent
value, as performed by the incremental minX and minZ updates. -/
def foldMin (m : XVal) (l : List ℚ) : XVal :=
  l.foldl (fun m q => if XVal.ltFin q m then .fin q else m) m

/-- Running maximum of a list of finite values starting from an extent
value, as performed by the incremental maxX and maxZ updates. -/
def foldMax (m : XVal) (l : List ℚ) : XVal :=
  l.foldl (fun m q => if XVal.gtFin q m then .fin q else m) m

/-- Colour palette of three RGB stops, each stop a JS array of normalised
components (source lines 36-57). -/
structure Palette where
  c1 : List ℚ
  c2 : List ℚ
  c3 : List ℚ
  deriving DecidableEq, Repr

/-- The fixed ordered list of the four palettes of the sketch (source
lines 36-57), idealised to exact rationals. -/
def palettes : List Palette :=
  [ { c1 := [1.0, 0.8, 0.9], c2 := [1.0, 0.8, 0.9], c3 := [1.0, 0.8, 0.9] },
    { c1 := [0.4, 0.6, 1.0], c2 := [0.4, 0.7, 1.0], c3 := [0.4, 0.7, 1.0] },
    { c1 := [1.0, 0.9, 0.6], c2 := [1.0, 0.9, 0.6], c3 := [1.0, 0.9, 0.6] },
    { c1 := [0.8, 0.9, 1.0], c2 := [0.8, 0.9, 1.0], c3 := [0.8, 0.9, 1.0] } ]

/-- Fallback used for list indexing of the palette list; every index the
sketch ever produces is in range, so the fallback is never read. -/
def defaultPalette : Palette :=
  { c1 := [], c2 := [], c3 := [] }

/-- The p5 builtin lerp on numbers: start plus (stop minus start) times
the interpolation amount. -/
def lerp (a b t : ℚ) : ℚ :=
  a + (b - a) * t

/-- lerpArray (source lines 64-66): a.map over value and index, mixing
each component with the matching component of b. All arrays the sketch
passes here have the same length, three. -/
def lerpArray (a b : List ℚ) (t : ℚ) : List ℚ :=
  a.mapIdx (fun i v => lerp v (b.getD i 0) t)

/-- The palette transition globals (source lines 58-61). -/
structure TransState where
  currentPaletteIndex : ℕ
  targetPaletteIndex : ℕ
  transitionProgress : ℚ
  startPalette : Palette
  deriving DecidableEq, Repr

/-- Initial transition state (source lines 58-61): both indices zero, the
transition already complete, the start palette the first palette. -/
def initTrans : TransState :=
  { currentPaletteIndex := 0
    targetPaletteIndex := 0
    transitionProgress := 1
    startPalette := palettes.getD 0 defaultPalette }

/-- mousePressed (source lines 275-282): when the previous transition has
completed, snapshot the start palette from the current palette, step the
target index cyclically modulo the palette count, and restart the
progress at zero; otherwise leave every global untouched. -/
def mousePressed (s : TransState) : TransState :=
  if 1 ≤ s.transitionProgress then
    { s with
      startPalette := palettes.getD s.currentPaletteIndex defaultPalette
      targetPaletteIndex := (s.currentPaletteIndex + 1) % palettes.length
      transitionProgress := 0 }
  else s

/-- The palette interpolation step at the top of draw (source lines
247-253): while a transition is in flight add 0.01 to the progress, and
when the sum reaches 1 clamp it to exactly 1 and commit the target index
into the current index. -/
def tickPalette (s : TransState) : TransState :=
  if s.transitionProgress < 1 then
    let p := s.transitionProgress + 0.01
    if 1 ≤ p then
      { s with transitionProgress := 1, currentPaletteIndex := s.targetPaletteIndex }
    else
      { s with transitionProgress := p }
  else s

/-- tickPalette applied n times, one application per rendered frame. -/
def tickN : ℕ → TransState → TransState
  | 0, s => s
  | n + 1, s => tickPalette (tickN n s)

/-- The interpolated palette cp computed fresh each frame (source lines
254-258). -/
def effectivePalette (s : TransState) : Palette :=
  { c1 := lerpArray s.startPalette.c1
      (palettes.getD s.targetPaletteIndex defaultPalette).c1 s.transitionProgress
    c2 := lerpArray s.startPalette.c2
      (palettes.getD s.targetPaletteIndex defaultPalette).c2 s.transitionProgress
    c3 := lerpArray s.startPalette.c3
      (palettes.getD s.targetPaletteIndex defaultPalette).c3 s.transitionProgress }

/-- GLSL clamp on scalars: min(max(x, lo), hi). -/
noncomputable def clampR (x lo hi : ℝ) : ℝ :=
  min (max x lo) hi

/-- GLSL atan with two arguments: the angle of the planar point (x, y) in
(-pi, pi], realised as the complex argument. -/
noncomputable def atan2 (y x : ℝ) : ℝ :=
  Complex.arg ⟨x, y⟩

/-- Value of a GLSL float computation, keeping the IEEE error values that
operations on finite operands can produce: a finite value idealised to an
exact real, the two infinities, and NaN. -/
inductive FVal where
  | fin (x : ℝ)
  | posInf
  | negInf
  | nan

/-- IEEE division of two finite float operands, as performed by the GLSL
division on source line 101: a nonzero divisor gives the exact quotient,
while a zero divisor (a positive zero, the only zero the embedding
represents) gives NaN when the dividend is also zero and a signed infinity
otherwise. -/
noncomputable def divF (a b : ℝ) : FVal :=
  if b = 0 then
    if a = 0 then .nan
    else if 0 < a then .posInf
    else .negInf
  else .fin (a / b)

/-- Unclamped gradient parameter of the vertex shader under the float
division model: rangeX, rangeZ, denom and dist are computed exactly as on
source lines 97-100 (exact on finite operands), and the final division of
source line 101 keeps its IEEE error values. -/
noncomputable def vertGradRawF (uMinX uMaxX uMinZ uMaxZ x z : ℝ) : FVal :=
  let rangeX := uMaxX - uMinX
  let rangeZ := uMaxZ - uMinZ
  let denom := rangeX + rangeZ
  let dist := (x - uMinX) + (z - uMinZ)
  divF dist denom

/-- Unclamped gradient parameter dist / denom of the vertex shader
(source lines 97-101), over the total division of the reals. Wherever the
denominator is nonzero this agrees with the float behaviour idealised to
exact reals; the division-by-zero error path is modelled separately by
vertGradRawF. -/
noncomputable def vertGradRaw (uMinX uMaxX uMinZ uMaxZ x z : ℝ) : ℝ :=
  let rangeX := uMaxX - uMinX
  let rangeZ := uMaxZ - uMinZ
  let denom := rangeX + rangeZ
  let dist := (x - uMinX) + (z - uMinZ)
  dist / denom

/-- Gradient parameter vT of the vertex shader after the clamp to [0, 1]
(source line 102). -/
noncomputable def vertGradT (uMinX uMaxX uMinZ uMaxZ x z : ℝ) : ℝ :=
  clampR (vertGradRaw uMinX uMaxX uMinZ uMaxZ x z) 0 1

/-- Swirl deformation of the vertex shader (source lines 105-113): rotate
the point about the vertical axis by the base angle plus a swirl angle that
grows with height and elapsed time, keeping y. -/
noncomputable def vertDeform (x y z uTime : ℝ) : ℝ × ℝ × ℝ :=
  let swirlFactor : ℝ := 0.02
  let swirlAngle := y * swirlFactor + uTime * 0.005
  let radius := Real.sqrt (x ^ 2 + z ^ 2)
  let baseAngle := atan2 z x
  let finalAngle := baseAngle + swirlAngle
  (Real.cos finalAngle * radius, y, Real.sin finalAngle * radius)

/-- GLSL mix on scalars: x (1 - a) + y a. -/
noncomputable def mixR (x y a : ℝ) : ℝ :=
  x * (1 - a) + y * a

/-- GLSL mix on three-component vectors, componentwise. -/
noncomputable def mix3 (x y : ℝ × ℝ × ℝ) (a : ℝ) : ℝ × ℝ × ℝ :=
  (mixR x.1 y.1 a, mixR x.2.1 y.2.1 a, mixR x.2.2 y.2.2 a)

/-- Componentwise (Hadamard) product of two three-component vectors, the
GLSL vector product. -/
noncomputable def mul3 (x y : ℝ × ℝ × ℝ) : ℝ × ℝ × ℝ :=
  (x.1 * y.1, x.2.1 * y.2.1, x.2.2 * y.2.2)

/-- Scaling of a three-component vector by a scalar. -/
noncomputable def smul3 (c : ℝ) (x : ℝ × ℝ × ℝ) : ℝ × ℝ × ℝ :=
  (x.1 * c, x.2.1 * c, x.2.2 * c)

/-- The brightness constant interpolated into the fragment shader source
(source lines 18 and 137). -/
noncomputable def brightnessFactor : ℝ := 1.5

/-- Linear interpolation a + (b - a) t over the reals, the form in which
the specification states the gradient mix. -/
noncomputable def lerpR (a b t : ℝ) : ℝ :=
  a + (b - a) * t

/-- The fragment shader main (source lines 139-152): two-segment gradient
across the three palette stop uniforms driven by vT, multiplied
componentwise into the native colour, scaled by the brightness constant
with no upper clamp, and emitted with constant alpha 1. -/
noncomputable def fragColor (vT : ℝ) (uColor1 uColor2 uColor3 vColor : ℝ × ℝ × ℝ) :
    (ℝ × ℝ × ℝ) × ℝ :=
  let gradColor :=
    if vT < 0.5 then mix3 uColor1 uColor2 (vT / 0.5)
    else mix3 uColor2 uColor3 ((vT - 0.5) / 0.5)
  let finalColor := mul3 vColor gradColor
  let finalColor := smul3 brightnessFactor finalColor
  (finalColor, 1.0)

end Tornado

section ParserLemmas

open Tornado

theorem foldMin_fin (l : List ℚ) : ∀ a : ℚ, foldMin (.fin a) l = .fin (l.foldl min a) := by
  induction l with
  | nil => intro a; rfl
  | cons q t ih =>
    intro a
    have hstep : (if XVal.ltFin q (.fin a) then XVal.fin q else .fin a) = .fin (min a q) := by
      by_cases h : q < a
      · simp [XVal.ltFin, h, min_eq_right (le_of_lt h)]
      · simp [XVal.ltFin, h, min_eq_left (le_of_not_lt h)]
    simp only [foldMin, List.foldl_cons] at *
    rw [hstep, ih (min a q)]

theorem foldMax_fin (l : List ℚ) : ∀ a : ℚ, foldMax (.fin a) l = .fin (l.foldl max a) := by
  induction l with
  | nil => intro a; rfl
  | cons q t ih =>
    intro a
    have hstep : (if XVal.gtFin q (.fin a) then XVal.fin q else .fin a) = .fin (max a q) := by
      by_cases h : a < q
      · simp [XVal.gtFin, h, max_eq_right (le_of_lt h)]
      · simp [XVal.gtFin, h, max_eq_left (le_of_not_lt h)]
    simp only [foldMax, List.foldl_cons] at *
    rw [hstep, ih (max a q)]

theorem take_pred_append (l : List PLine) (a : PLine) :
    (l ++ [a]).take ((l ++ [a]).length - 1) = l := by
  simp [List.take_left]

theorem foldl_step_header (sc xa ya za : ℚ) (hdr : List PLine) :
    ∀ s : PState, s.header = true → (∀ l ∈ hdr, l.hasEndHeader = false) →
      hdr.foldl (step sc xa ya za) s = s := by
  induction hdr with
  | nil => intro s _ _; rfl
  | cons l t ih =>
    intro s hs hh
    have hl : l.hasEndHeader = false := hh l (List.mem_cons_self l t)
    have hstep : step sc xa ya za s l = s := by
      simp [step, hl, hs]
    rw [List.foldl_cons, hstep]
    exact ih s hs fun x hx => hh x (List.mem_cons_of_mem l hx)

theorem step_sentinel (sc xa ya za : ℚ) (s : PState) (l : PLine)
    (hl : l.hasEndHeader = true) :
    step sc xa ya za s l = { s with header := false } := by
  simp [step, hl]

theorem step_data (sc xa ya za : ℚ) (s : PState) (d : DataLine)
    (hs : s.header = false) :
    step sc xa ya za s d.toLine =
      { s with
        vertices := s.vertices ++ [px sc xa d, py sc ya d, pz sc za d]
        colors := s.colors ++ [some (d.r / 255), some (d.g / 255), some (d.b / 255)]
        minX := if XVal.ltFin (px sc xa d) s.minX then .fin (px sc xa d) else s.minX
        maxX := if XVal.gtFin (px sc xa d) s.maxX then .fin (px sc xa d) else s.maxX
        minZ := if XVal.ltFin (pz sc za d) s.minZ then .fin (pz sc za d) else s.minZ
        maxZ := if XVal.gtFin (pz sc za d) s.maxZ then .fin (pz sc za d) else s.maxZ } := by
  simp [step, DataLine.toLine, PLine.field, hs, px, py, pz]

theorem step_malformed (sc xa ya za : ℚ) (s : PState) (l : PLine)
    (hl : l.hasEndHeader = false)
    (hx : l.field 0 = none ∨ l.field 1 = none ∨ l.field 2 = none) :
    step sc xa ya za s l = s := by
  by_cases hs : s.header
  · simp [step, hl, hs]
  · rcases hx with h | h | h <;> simp [step, hl, hs, h]

theorem foldl_step_data (sc xa ya za : ℚ) (data : List DataLine) :
    ∀ s : PState, s.header = false →
      (data.map DataLine.toLine).foldl (step sc xa ya za) s =
        { s with
          vertices := s.vertices ++
            data.flatMap (fun d => [px sc xa d, py sc ya d, pz sc za d])
          colors := s.colors ++
            data.flatMap (fun d => [some (d.r / 255), some (d.g / 255), some (d.b / 255)])
          minX := foldMin s.minX (data.map (px sc xa))
          maxX := foldMax s.maxX (data.map (px sc xa))
          minZ := foldMin s.minZ (data.map (pz sc za))
          maxZ := foldMax s.maxZ (data.map (pz sc za)) } := by
  induction data with
  | nil => intro s hs; simp [foldMin, foldMax]
  | cons d t ih =>
    intro s hs
    rw [List.map_cons, List.foldl_cons, step_data sc xa ya za s d hs, ih]
    · simp [foldMin, foldMax]
    · exact hs

theorem foldMin_posInf (a : ℚ) (l : List ℚ) :
    foldMin .posInf (a :: l) = .fin (l.foldl min a) := by
  have h : foldMin XVal.posInf (a :: l) = foldMin (.fin a) l := by
    simp [foldMin, XVal.ltFin]
  rw [h, foldMin_fin]

theorem foldMax_negInf (a : ℚ) (l : List ℚ) :
    foldMax .negInf (a :: l) = .fin (l.foldl max a) := by
  have h : foldMax XVal.negInf (a :: l) = foldMax (.fin a) l := by
    simp [foldMax, XVal.gtFin]
  rw [h, foldMax_fin]

theorem flatMap_three_length {α β : Type} (f g h : α → β) (l : List α) :
    (l.flatMap fun d => [f d, g d, h d]).length = 3 * l.length := by
  induction l with
  | nil => rfl
  | cons a t ih =>
    simp only [List.flatMap_cons, List.length_append, List.length_cons, List.length_nil, ih]
    omega

end ParserLemmas

section ParserClaims

open Tornado

/-- Claim C3: parsePointCloud never examines the final element of the
newline-split line list (the loop runs while i < lines.length - 1); hence
replacing the last line by anything else, in particular replacing a valid
data line in last position by an empty line, changes neither the points
nor the extent. -/
theorem parse_ignores_last_line (sc xa ya za : ℚ) (lines : List PLine) (a b : PLine) :
    parsePointCloud (lines ++ [a]) sc xa ya za =
      parsePointCloud (lines ++ [b]) sc xa ya za := by
  unfold parsePointCloud
  rw [take_pred_append, take_pred_append]

/-- Claim C7: a data line after the sentinel whose x, y or z field does not
parse to a valid number is skipped whole, wherever it sits among lines that
are not the final split element: parsing with the line present gives the
very same state (same points, same colours, same extent) as parsing with
the line removed, and no error is surfaced (the function is total). -/
theorem parse_skips_malformed (sc xa ya za : ℚ) (pre rest : List PLine) (bad : PLine)
    (hb : bad.hasEndHeader = false)
    (hx : bad.field 0 = none ∨ bad.field 1 = none ∨ bad.field 2 = none)
    (hr : rest ≠ []) :
    parsePointCloud (pre ++ bad :: rest) sc xa ya za =
      parsePointCloud (pre ++ rest) sc xa ya za := by
  obtain ⟨r, t, rfl⟩ : ∃ r t, rest = r ++ [t] :=
    ⟨rest.dropLast, rest.getLast hr, (List.dropLast_append_getLast hr).symm⟩
  have h1 : pre ++ bad :: (r ++ [t]) = (pre ++ bad :: r) ++ [t] := by simp
  have h2 : pre ++ (r ++ [t]) = (pre ++ r) ++ [t] := by simp
  unfold parsePointCloud
  rw [h1, h2, take_pred_append, take_pred_append, List.foldl_append, List.foldl_append,
    List.foldl_cons, step_malformed sc xa ya za _ bad hb hx]

/-- Concrete run of parse_skips_malformed: a line whose x token is NaN,
placed right after the sentinel, leaves the parse state untouched. -/
theorem parse_skips_malformed_witness :
    parsePointCloud
        [⟨true, [none]⟩, ⟨false, [none, some 1, some 2]⟩, ⟨false, [none]⟩] 2 0 0 0 =
      parsePointCloud [⟨true, [none]⟩, ⟨false, [none]⟩] 2 0 0 0 :=
  parse_skips_malformed 2 0 0 0 [⟨true, [none]⟩] [⟨false, [none]⟩]
    ⟨false, [none, some 1, some 2]⟩ rfl (Or.inl rfl) (by decide)

/-- Claim C10: an empty input, a header-only input, and a header-only input
followed by the empty fragment a trailing newline leaves all parse to the
empty cloud: no points, no colours, and the degenerate extent with minX and
minZ at positive infinity and maxX and maxZ at negative infinity; the frame
driver then draws zero points, and no error is raised anywhere (all
functions involved are total). -/
theorem parse_empty_header_only (sc xa ya za : ℚ) (hdr : List PLine) (sent : PLine)
    (hh : ∀ l ∈ hdr, l.hasEndHeader = false) (hsent : sent.hasEndHeader = true) :
    parsePointCloud [] sc xa ya za = initState
    ∧ parsePointCloud (hdr ++ [sent]) sc xa ya za = initState
    ∧ parsePointCloud (hdr ++ [sent, ⟨false, [none]⟩]) sc xa ya za =
        { initState with header := false }
    ∧ initState.vertices = []
    ∧ initState.colors = []
    ∧ initState.minX = XVal.posInf
    ∧ initState.maxX = XVal.negInf
    ∧ initState.minZ = XVal.posInf
    ∧ initState.maxZ = XVal.negInf
    ∧ drawCount initState.vertices = 0 := by
  refine ⟨rfl, ?_, ?_, rfl, rfl, rfl, rfl, rfl, rfl, rfl⟩
  · unfold parsePointCloud
    rw [take_pred_append, foldl_step_header sc xa ya za hdr initState rfl hh]
  · have h1 : hdr ++ [sent, (⟨false, [none]⟩ : PLine)] =
        (hdr ++ [sent]) ++ [⟨false, [none]⟩] := by simp
    unfold parsePointCloud
    rw [h1, take_pred_append, List.foldl_append,
      foldl_step_header sc xa ya za hdr initState rfl hh, List.foldl_cons,
      step_sentinel sc xa ya za initState sent hsent]
    rfl

/-- Concrete run of parse_empty_header_only with a one-line header. -/
theorem parse_empty_header_only_witness :
    parsePointCloud [] 2500 0 500 0 = initState
    ∧ parsePointCloud [⟨false, [some 1]⟩, ⟨true, [none]⟩] 2500 0 500 0 = initState
    ∧ parsePointCloud [⟨false, [some 1]⟩, ⟨true, [none]⟩, ⟨false, [none]⟩] 2500 0 500 0 =
        { initState with header := false }
    ∧ initState.vertices = []
    ∧ initState.colors = []
    ∧ initState.minX = XVal.posInf
    ∧ initState.maxX = XVal.negInf
    ∧ initState.minZ = XVal.posInf
    ∧ initState.maxZ = XVal.negInf
    ∧ drawCount initState.vertices = 0 :=
  parse_empty_header_only 2500 0 500 0 [⟨false, [some 1]⟩] ⟨true, [none]⟩
    (by decide) rfl

/-- Claim C1: for an input whose newline-split is a header (no line of
which contains the sentinel marker), the sentinel line, N data lines with
six numeric fields each, and the final fragment left by the terminating
newline, parse yields exactly N points in input order, each position being
(x scale + offsetX, (-y) scale + offsetY, z scale + offsetZ), each colour
component the raw value divided by 255, and for N positive the extent is
exactly the minimum and maximum of the post-transform x and z values. -/
theorem parse_valid_input (sc xa ya za : ℚ) (hdr : List PLine) (sent trail : PLine)
    (data : List DataLine) (st : PState)
    (hh : ∀ l ∈ hdr, l.hasEndHeader = false) (hsent : sent.hasEndHeader = true)
    (hst : st = parsePointCloud (hdr ++ sent :: (data.map DataLine.toLine ++ [trail]))
      sc xa ya za) :
    st.vertices = data.flatMap (fun d => [px sc xa d, py sc ya d, pz sc za d])
    ∧ st.colors = data.flatMap
        (fun d => [some (d.r / 255), some (d.g / 255), some (d.b / 255)])
    ∧ st.vertices.length = 3 * data.length
    ∧ ∀ d0 rest, data = d0 :: rest →
        st.minX = XVal.fin ((rest.map (px sc xa)).foldl min (px sc xa d0))
        ∧ st.maxX = XVal.fin ((rest.map (px sc xa)).foldl max (px sc xa d0))
        ∧ st.minZ = XVal.fin ((rest.map (pz sc za)).foldl min (pz sc za d0))
        ∧ st.maxZ = XVal.fin ((rest.map (pz sc za)).foldl max (pz sc za d0)) := by
  have hlist : hdr ++ sent :: (data.map DataLine.toLine ++ [trail]) =
      (hdr ++ sent :: data.map DataLine.toLine) ++ [trail] := by simp
  have hmain : st =
      { header := false
        vertices := data.flatMap (fun d => [px sc xa d, py sc ya d, pz sc za d])
        colors := data.flatMap
          (fun d => [some (d.r / 255), some (d.g / 255), some (d.b / 255)])
        minX := foldMin XVal.posInf (data.map (px sc xa))
        maxX := foldMax XVal.negInf (data.map (px sc xa))
        minZ := foldMin XVal.posInf (data.map (pz sc za))
        maxZ := foldMax XVal.negInf (data.map (pz sc za)) } := by
    rw [hst]
    unfold parsePointCloud
    rw [hlist, take_pred_append, List.foldl_append,
      foldl_step_header sc xa ya za hdr initState rfl hh, List.foldl_cons,
      step_sentinel sc xa ya za initState sent hsent]
    simpa using foldl_step_data sc xa ya za data { initState with header := false } rfl
  refine ⟨by rw [hmain], by rw [hmain], ?_, ?_⟩
  · rw [hmain]
    exact flatMap_three_length _ _ _ data
  · intro d0 rest hdata
    subst hdata
    rw [hmain]
    exact ⟨by simp [foldMin_posInf], by simp [foldMax_negInf],
      by simp [foldMin_posInf], by simp [foldMax_negInf]⟩

/-- Concrete run of parse_valid_input on two data lines with scale 2 and
offsets (1, 1, 1): both points appear in order with the documented
transform, and the extent is the exact min and max of the transformed x
and z values. -/
theorem parse_valid_input_witness :
    (parsePointCloud
        [⟨false, [none]⟩, ⟨true, [none]⟩,
          DataLine.toLine ⟨1, 2, 3, 255, 0, 51, []⟩,
          DataLine.toLine ⟨-1, 0, 5, 0, 255, 102, []⟩,
          ⟨false, [none]⟩] 2 1 1 1).vertices = [3, -3, 7, -1, 1, 11]
    ∧ (parsePointCloud
        [⟨false, [none]⟩, ⟨true, [none]⟩,
          DataLine.toLine ⟨1, 2, 3, 255, 0, 51, []⟩,
          DataLine.toLine ⟨-1, 0, 5, 0, 255, 102, []⟩,
          ⟨false, [none]⟩] 2 1 1 1).colors =
        [some 1, some 0, some (1/5), some 0, some 1, some (2/5)]
    ∧ (parsePointCloud
        [⟨false, [none]⟩, ⟨true, [none]⟩,
          DataLine.toLine ⟨1, 2, 3, 255, 0, 51, []⟩,
          DataLine.toLine ⟨-1, 0, 5, 0, 255, 102, []⟩,
          ⟨false, [none]⟩] 2 1 1 1).minX = XVal.fin (-1)
    ∧ (parsePointCloud
        [⟨false, [none]⟩, ⟨true, [none]⟩,
          DataLine.toLine ⟨1, 2, 3, 255, 0, 51, []⟩,
          DataLine.toLine ⟨-1, 0, 5, 0, 255, 102, []⟩,
          ⟨false, [none]⟩] 2 1 1 1).maxX = XVal.fin 3
    ∧ (parsePointCloud
        [⟨false, [none]⟩, ⟨true, [none]⟩,
          DataLine.toLine ⟨1, 2, 3, 255, 0, 51, []⟩,
          DataLine.toLine ⟨-1, 0, 5, 0, 255, 102, []⟩,
          ⟨false, [none]⟩] 2 1 1 1).maxZ = XVal.fin 11 := by
  have h := parse_valid_input 2 1 1 1 [⟨false, [none]⟩] ⟨true, [none]⟩ ⟨false, [none]⟩
    [⟨1, 2, 3, 255, 0, 51, []⟩, ⟨-1, 0, 5, 0, 255, 102, []⟩] _ (by decide) rfl rfl
  obtain ⟨hv, hc, _, hext⟩ := h
  obtain ⟨hminX, hmaxX, _, hmaxZ⟩ := hext _ _ rfl
  refine ⟨hv.trans ?_, hc.trans ?_, hminX.trans ?_, hmaxX.trans ?_, hmaxZ.trans ?_⟩ <;>
    norm_num [px, py, pz, List.flatMap_cons, List.flatMap_nil, List.foldl_cons,
      List.foldl_nil]

end ParserClaims

section PaletteClaims

open Tornado

theorem lerpArray_three (v0 v1 v2 w0 w1 w2 t : ℚ) :
    lerpArray [v0, v1, v2] [w0, w1, w2] t =
      [lerp v0 w0 t, lerp v1 w1 t, lerp v2 w2 t] := rfl

theorem lerp_one (a b : ℚ) : lerp a b 1 = b := by
  unfold lerp
  ring

theorem tickN_from_zero (n : ℕ) (hn : n ≤ 99) (ci ti : ℕ) (sp : Palette) :
    tickN n ⟨ci, ti, 0, sp⟩ = ⟨ci, ti, (n : ℚ) / 100, sp⟩ := by
  induction n with
  | zero => norm_num [tickN]
  | succ n ih =>
    have hn8 : n ≤ 98 := by omega
    have hcast : (n : ℚ) ≤ 98 := by exact_mod_cast hn8
    have hlt : ((n : ℚ) / 100) < 1 := by linarith
    have hp : ¬ (1 ≤ (n : ℚ) / 100 + 0.01) := by
      rw [not_le, show (0.01 : ℚ) = 1 / 100 from by norm_num]
      linarith
    rw [show tickN (n + 1) (⟨ci, ti, 0, sp⟩ : TransState) =
        tickPalette (tickN n ⟨ci, ti, 0, sp⟩) from rfl,
      ih (by omega)]
    simp only [tickPalette, hlt, if_true, if_pos hlt, if_neg hp]
    norm_num [TransState.mk.injEq]
    ring

/-- Claim C5: while a transition is in flight mousePressed is a strict
no-op, leaving the whole state (start palette, target index, progress,
current index) unchanged with no queueing; once the progress has reached 1
it snapshots the start palette from the current palette, sets the target
index to the cyclic successor modulo 4, and resets the progress to 0. -/
theorem advance_noop_or_snapshot (s : TransState) :
    (s.transitionProgress < 1 → mousePressed s = s)
    ∧ (1 ≤ s.transitionProgress → mousePressed s =
        { s with
          startPalette := palettes.getD s.currentPaletteIndex defaultPalette
          targetPaletteIndex := (s.currentPaletteIndex + 1) % 4
          transitionProgress := 0 }) := by
  constructor
  · intro h
    simp [mousePressed, not_le.mpr h]
  · intro h
    simp [mousePressed, h, palettes]

/-- Concrete runs of advance_noop_or_snapshot: a mid-transition press at
progress one half changes nothing, and a press at progress 1 from index 2
snapshots palette 2, targets index 3, and zeroes the progress. -/
theorem advance_noop_or_snapshot_witness :
    mousePressed ⟨2, 2, 1/2, defaultPalette⟩ = ⟨2, 2, 1/2, defaultPalette⟩
    ∧ mousePressed ⟨2, 2, 1, defaultPalette⟩ =
        ⟨2, 3, 0, palettes.getD 2 defaultPalette⟩ := by
  constructor
  · exact (advance_noop_or_snapshot ⟨2, 2, 1/2, defaultPalette⟩).1 (by norm_num)
  · exact (advance_noop_or_snapshot ⟨2, 2, 1, defaultPalette⟩).2 (by norm_num)

/-- Claim C4: from a completed state with a valid current index, advancing
and then ticking 100 times drives the progress to exactly 1 (after 99
ticks it is still below 1, so the hundredth tick is where it first
reaches 1 and the current index is committed to the target index), and the
effective palette then equals the target palette exactly, componentwise in
all three stops. -/
theorem palette_transition_convergence (s : TransState)
    (hidx : s.currentPaletteIndex < 4) (hdone : 1 ≤ s.transitionProgress) :
    (tickN 99 (mousePressed s)).transitionProgress < 1
    ∧ (tickN 100 (mousePressed s)).transitionProgress = 1
    ∧ (tickN 100 (mousePressed s)).currentPaletteIndex =
        (mousePressed s).targetPaletteIndex
    ∧ effectivePalette (tickN 100 (mousePressed s)) =
        palettes.getD (mousePressed s).targetPaletteIndex defaultPalette := by
  obtain ⟨ci, ti, pr, sp⟩ := s
  have hmp : mousePressed ⟨ci, ti, pr, sp⟩ =
      ⟨ci, (ci + 1) % 4, 0, palettes.getD ci defaultPalette⟩ := by
    simp only [mousePressed] at *
    simp [hdone, palettes]
  rw [hmp]
  have h99 := tickN_from_zero 99 (by norm_num) ci ((ci + 1) % 4)
    (palettes.getD ci defaultPalette)
  have h100 : tickN 100 (⟨ci, (ci + 1) % 4, 0, palettes.getD ci defaultPalette⟩ : TransState) =
      ⟨(ci + 1) % 4, (ci + 1) % 4, 1, palettes.getD ci defaultPalette⟩ := by
    rw [show tickN 100 (⟨ci, (ci + 1) % 4, 0, palettes.getD ci defaultPalette⟩ : TransState) =
        tickPalette (tickN 99 ⟨ci, (ci + 1) % 4, 0, palettes.getD ci defaultPalette⟩) from rfl,
      h99]
    norm_num [tickPalette]
  refine ⟨?_, ?_, ?_, ?_⟩
  · rw [h99]
    norm_num
  · rw [h100]
  · rw [h100]
  · rw [h100]
    simp only at hidx
    interval_cases ci <;>
      norm_num [effectivePalette, palettes, defaultPalette, lerpArray_three, lerp_one,
        Palette.mk.injEq]

/-- Concrete run of palette_transition_convergence from the initial state:
a press followed by one hundred ticks lands exactly on palette 1. -/
theorem palette_transition_convergence_witness :
    (tickN 99 (mousePressed initTrans)).transitionProgress < 1
    ∧ (tickN 100 (mousePressed initTrans)).transitionProgress = 1
    ∧ (tickN 100 (mousePressed initTrans)).currentPaletteIndex =
        (mousePressed initTrans).targetPaletteIndex
    ∧ effectivePalette (tickN 100 (mousePressed initTrans)) =
        palettes.getD (mousePressed initTrans).targetPaletteIndex defaultPalette :=
  palette_transition_convergence initTrans (by norm_num [initTrans]) (by norm_num [initTrans])

end PaletteClaims

section ShaderClaims

open Tornado

/-- Claim C2, against which the code diverges: the claim (and the
specification, which demands a guard treating the degenerate case as
t = 0) says that with a zero gradient denominator the computation does not
crash and t defaults to 0 for every point, but the shader divides
unguarded on source line 101. Under the float semantics of that division,
in a degenerate session, here uniforms minX = maxX = 0 and minZ = maxZ = 0
from a cloud whose every point has x = z = 0, each point has dist = 0 and
denom = 0, so the unclamped parameter is NaN, not the number 0 (and a
hypothetical point with nonzero dist would give positive infinity); the
clamp of NaN on source line 102 is left undefined by GLSL, so the code
does not establish the claimed default. -/
theorem vert_grad_unguarded_nan :
    vertGradRawF 0 0 0 0 0 0 = FVal.nan
    ∧ vertGradRawF 0 0 0 0 1 0 = FVal.posInf
    ∧ FVal.nan ≠ FVal.fin 0
    ∧ FVal.posInf ≠ FVal.fin 0 := by
  refine ⟨?_, ?_, fun h => FVal.noConfusion h, fun h => FVal.noConfusion h⟩
  · simp [vertGradRawF, divF]
  · norm_num [vertGradRawF, divF]

/-- Claim C6: for every point and elapsed time, the frame transform
computes swirlAngle = y times 0.02 plus time times 0.005, radius =
sqrt (x squared plus z squared), baseAngle = atan2 z x, finalAngle =
baseAngle + swirlAngle, and returns (radius cos finalAngle, y, radius sin
finalAngle); consequently at elapsed time 0 a point at height 0 is
unrotated: its deformed position equals the original x and z. -/
theorem vertDeform_swirl (x y z uTime : ℝ) :
    vertDeform x y z uTime =
      (Real.cos (atan2 z x + (y * 0.02 + uTime * 0.005)) * Real.sqrt (x ^ 2 + z ^ 2),
        y,
        Real.sin (atan2 z x + (y * 0.02 + uTime * 0.005)) * Real.sqrt (x ^ 2 + z ^ 2))
    ∧ vertDeform x 0 z 0 = (x, 0, z) := by
  constructor
  · rfl
  · have habs : Real.sqrt (x ^ 2 + z ^ 2) = Complex.abs ⟨x, z⟩ := by
      rw [Complex.abs_apply, Complex.normSq_mk]
      ring_nf
    by_cases hzero : (⟨x, z⟩ : ℂ) = 0
    · have hx : x = 0 := by simpa using congrArg Complex.re hzero
      have hz : z = 0 := by simpa using congrArg Complex.im hzero
      subst hx
      subst hz
      simp [vertDeform]
    · have hne : Complex.abs ⟨x, z⟩ ≠ 0 := Complex.abs.ne_zero hzero
      simp only [vertDeform, atan2]
      rw [habs]
      have h1 : (0 : ℝ) * 0.02 + 0 * 0.005 = 0 := by norm_num
      rw [h1, add_zero, Complex.cos_arg hzero, Complex.sin_arg]
      rw [Prod.mk.injEq, Prod.mk.injEq]
      exact ⟨div_mul_cancel₀ x hne, rfl, div_mul_cancel₀ z hne⟩

/-- Claim C8: the clamped gradient parameter always lies in [0, 1]; and
under a positive denominator, of two points sharing a z value the one with
the strictly larger x has a strictly larger unclamped parameter, and the
clamped parameters are in the same non-strict order (strictness can only
be lost where the clamp saturates at a boundary). -/
theorem vert_grad_bounds_mono (uMinX uMaxX uMinZ uMaxZ x z x1 x2 zc : ℝ) :
    (0 ≤ vertGradT uMinX uMaxX uMinZ uMaxZ x z
      ∧ vertGradT uMinX uMaxX uMinZ uMaxZ x z ≤ 1)
    ∧ (0 < (uMaxX - uMinX) + (uMaxZ - uMinZ) → x1 < x2 →
        vertGradRaw uMinX uMaxX uMinZ uMaxZ x1 zc <
            vertGradRaw uMinX uMaxX uMinZ uMaxZ x2 zc
          ∧ vertGradT uMinX uMaxX uMinZ uMaxZ x1 zc ≤
              vertGradT uMinX uMaxX uMinZ uMaxZ x2 zc) := by
  refine ⟨⟨?_, ?_⟩, ?_⟩
  · exact le_min (le_max_right _ _) zero_le_one
  · exact min_le_right _ _
  · intro hd hx
    have hraw : vertGradRaw uMinX uMaxX uMinZ uMaxZ x1 zc <
        vertGradRaw uMinX uMaxX uMinZ uMaxZ x2 zc := by
      simp only [vertGradRaw]
      rw [div_lt_div_iff_of_pos_right hd]
      linarith
    exact ⟨hraw, min_le_min (max_le_max hraw.le le_rfl) le_rfl⟩

/-- Concrete run of vert_grad_bounds_mono with extent x in [0, 1], z
degenerate: the parameter of an arbitrary point is within bounds, and
between x = 0 and x = 1 at equal z both the raw and the clamped parameter
grow. -/
theorem vert_grad_bounds_mono_witness :
    (0 ≤ vertGradT 0 1 0 0 5 7 ∧ vertGradT 0 1 0 0 5 7 ≤ 1)
    ∧ (vertGradRaw 0 1 0 0 0 0 < vertGradRaw 0 1 0 0 1 0
        ∧ vertGradT 0 1 0 0 0 0 ≤ vertGradT 0 1 0 0 1 0) := by
  have h := vert_grad_bounds_mono 0 1 0 0 5 7 0 1 0
  exact ⟨h.1, h.2 (by simp) (by simp)⟩

/-- Claim C9: the fragment shader output equals, componentwise, the native
colour times the two-segment gradient (the linear interpolation of c1 to
c2 at t / 0.5 when t is below one half, else of c2 to c3 at
(t - 0.5) / 0.5) times the brightness factor 1.5, with no upper clamp
applied (at t = 0 with an all-ones palette and native colour the red
component is 1.5, strictly above 1), and the alpha component is always the
constant 1. -/
theorem fragColor_gradient (t : ℝ) (c1 c2 c3 nc : ℝ × ℝ × ℝ) :
    fragColor t c1 c2 c3 nc =
      ((if t < 0.5 then
          (nc.1 * lerpR c1.1 c2.1 (t / 0.5) * 1.5,
            nc.2.1 * lerpR c1.2.1 c2.2.1 (t / 0.5) * 1.5,
            nc.2.2 * lerpR c1.2.2 c2.2.2 (t / 0.5) * 1.5)
        else
          (nc.1 * lerpR c2.1 c3.1 ((t - 0.5) / 0.5) * 1.5,
            nc.2.1 * lerpR c2.2.1 c3.2.1 ((t - 0.5) / 0.5) * 1.5,
            nc.2.2 * lerpR c2.2.2 c3.2.2 ((t - 0.5) / 0.5) * 1.5)), 1)
    ∧ (fragColor 0 (1, 1, 1) (1, 1, 1) (1, 1, 1) (1, 1, 1)).1.1 = 1.5
    ∧ (1 : ℝ) < (fragColor 0 (1, 1, 1) (1, 1, 1) (1, 1, 1) (1, 1, 1)).1.1 := by
  refine ⟨?_, ?_, ?_⟩
  · simp only [fragColor, mix3, mixR, mul3, smul3, brightnessFactor, lerpR]
    by_cases h : t < 0.5
    · simp only [if_pos h, Prod.mk.injEq]
      refine ⟨⟨?_, ?_, ?_⟩, by norm_num⟩ <;> ring
    · simp only [if_neg h, Prod.mk.injEq]
      refine ⟨⟨?_, ?_, ?_⟩, by norm_num⟩ <;> ring
  · norm_num [fragColor, mix3, mixR, mul3, smul3, brightnessFactor]
  · norm_num [fragColor, mix3, mixR, mul3, smul3, brightnessFactor]

end ShaderClaims
